import Mathlib

/-!
# urlshort: `MapHandler`, `YAMLHandler`, `buildMap`, `parseYAML`

A shallow embedding of `src/handler.go` (package `urlshort`).

* Go strings are Lean `String`s (UTF-8 text), a `[]byte` buffer is a `List UInt8`,
  a nil slice and an empty slice are both the empty list, a Go `error` is an
  `Option String` (`none` is `nil`).
* A handler `func(w http.ResponseWriter, r *http.Request)` is a state-passing
  function `ResponseWriter → Request → ResponseWriter`: it returns the sink as
  the call leaves it.
* What the file calls outside the package is kept apart from the package's own
  code: `net/http`'s `Redirect` is modelled after the Go standard library (with
  `net/url`'s `Parse` and `EscapedPath` and `http.StatusText` as parameters,
  `NetLib`), and `yaml.v2`'s `Unmarshal` is a parameter of `parseYAML`; what
  the yaml.v2 decoder makes of a document's node tree is `yamlUnmarshal`.
* `buildMap` ranges over an identifier `pathURLS` that `handler.go` does not
  declare; it is the field of `Package`.
-/

set_option linter.unusedVariables false

namespace Urlshort

/-! ## Go maps -/

/-- Go `map[string]string`: the bindings, the first binding of a key being the
one the map holds (`set` keeps one binding per key). -/
structure GoMap where
  entries : List (String × String)
deriving DecidableEq, Repr

/-- Go `make(map[string]string)`. -/
def GoMap.make : GoMap := ⟨[]⟩

/-- Go `v, ok := m[k]`: `some v` when `ok`, `none` when `k` is not a key. -/
def GoMap.get (m : GoMap) (k : String) : Option String :=
  m.entries.lookup k

/-- Go `m[k] = v`. -/
def GoMap.set (m : GoMap) (k v : String) : GoMap :=
  ⟨(k, v) :: m.entries.filter (fun e => e.1 != k)⟩

/-! ## net/http: requests, response sinks, handlers -/

/-- Go `http.Header`, a `map[string][]string`. -/
structure Header where
  entries : List (String × List String)
deriving DecidableEq, Repr

/-- Go `vs, ok := h[k]`. -/
def Header.get (h : Header) (k : String) : Option (List String) :=
  h.entries.lookup k

/-- Go `h.Set(k, v)` for a key already in canonical form (`Location`,
`Content-Type`): the key is bound to the single value `v`. -/
def Header.Set (h : Header) (k v : String) : Header :=
  ⟨(k, [v]) :: h.entries.filter (fun e => e.1 != k)⟩

/-- Go `url.URL`, the fields a request or `http.Redirect` reads. `Path` is the
decoded path and `RawPath` the encoded path hint (empty when the default
encoding of `Path` is the one the request used). -/
structure URL where
  Scheme : String
  Host : String
  Path : String
  RawPath : String
  RawQuery : String
  Fragment : String
deriving DecidableEq, Repr

/-- Go `http.Request`: method, URL, headers and body. -/
structure Request where
  Method : String
  URL : URL
  Header : Header
  Body : String
deriving DecidableEq, Repr

/-- The response sink behind an `http.ResponseWriter`: the header map, the
status code of the first `WriteHeader` (`none` while nothing was written) and
the body written so far. -/
structure ResponseWriter where
  header : Header
  status : Option Nat
  body : String
deriving DecidableEq, Repr

/-- A sink nothing was written to. -/
def ResponseWriter.fresh : ResponseWriter := ⟨⟨[]⟩, none, ""⟩

/-- Go `w.WriteHeader(code)`: the first call fixes the status. -/
def ResponseWriter.WriteHeader (w : ResponseWriter) (code : Nat) : ResponseWriter :=
  match w.status with
  | none => { w with status := some code }
  | some _ => w

/-- Go `w.Write(s)`: writes the status 200 first when none was written. -/
def ResponseWriter.Write (w : ResponseWriter) (s : String) : ResponseWriter :=
  let w1 := w.WriteHeader 200
  { w1 with body := w1.body ++ s }

/-- Go `http.HandlerFunc`, and `ServeHTTP` of an `http.Handler`. -/
abbrev Handler := ResponseWriter → Request → ResponseWriter

/-- Go `http.StatusFound`. -/
def StatusFound : Nat := 302

/-- What `http.Redirect` uses of the standard library beyond string handling:
`urlParse s` is `net/url.Parse(s)` (`none` when it returns an error),
`EscapedPath u` is `u.EscapedPath()` (the encoded form of the path: `RawPath`
when it is a valid encoding of `Path`, the default encoding of `Path`
otherwise) and `StatusText` is `http.StatusText`. -/
structure NetLib where
  urlParse : String → Option URL
  EscapedPath : URL → String
  StatusText : Nat → String

/-! ## The string helpers `http.Redirect` is built from -/

/-- Go `path.Split(p)`, first result: `p` up to and including its last slash
(empty when `p` has no slash). -/
def pathSplitDir (p : List Char) : List Char :=
  (p.reverse.dropWhile (fun c => c != '/')).reverse

/-- The elements of a path between its slashes. -/
def splitSlash : List Char → List (List Char)
  | [] => [[]]
  | c :: cs =>
    if c = '/' then [] :: splitSlash cs
    else
      match splitSlash cs with
      | [] => [[c]]
      | e :: es => (c :: e) :: es

/-- Go `path.Clean`, the backtracking loop of a `..` element:
`for out.w > dotdot && out.index(out.w) != '/' { out.w-- }`, started at `w`. -/
def cleanBacktrack (out : List Char) (dotdot : Nat) : Nat → Nat
  | 0 => 0
  | w + 1 =>
    if dotdot < w + 1 ∧ out.get? (w + 1) ≠ some '/' then cleanBacktrack out dotdot w
    else w + 1

/-- Go `path.Clean`, one round of its loop on the path element `e`; the state is
the output buffer and the index `dotdot` below which `..` must not backtrack. -/
def cleanElem (rooted : Bool) (st : List Char × Nat) (e : List Char) : List Char × Nat :=
  if e = [] then st
  else if e = ['.'] then st
  else if e = ['.', '.'] then
    if st.2 < st.1.length then
      (st.1.take (cleanBacktrack st.1 st.2 (st.1.length - 1)), st.2)
    else if !rooted then
      let out := (if 0 < st.1.length then st.1 ++ ['/'] else st.1) ++ ['.', '.']
      (out, out.length)
    else st
  else
    ((if (rooted && st.1.length != 1) || (!rooted && st.1.length != 0)
        then st.1 ++ ['/'] else st.1) ++ e, st.2)

/-- Go `path.Clean`. -/
def pathClean (path : List Char) : List Char :=
  if path = [] then ['.']
  else
    let rooted := path.head? = some '/'
    let start : List Char × Nat := if rooted then (['/'], 1) else ([], 0)
    let out :=
      ((splitSlash (if rooted then path.tail else path)).foldl (cleanElem rooted) start).1
    if out = [] then ['.'] else out

/-- The UTF-8 bytes of a character. -/
def utf8Bytes (c : Char) : List Nat :=
  let v := c.toNat
  if v < 0x80 then [v]
  else if v < 0x800 then [0xC0 + v / 64, 0x80 + v % 64]
  else if v < 0x10000 then [0xE0 + v / 4096, 0x80 + v / 64 % 64, 0x80 + v % 64]
  else [0xF0 + v / 262144, 0x80 + v / 4096 % 64, 0x80 + v / 64 % 64, 0x80 + v % 64]

/-- A hexadecimal digit as `strconv` writes it (lower case). -/
def hexDigit (n : Nat) : Char :=
  "0123456789abcdef".data.getD n '0'

/-- Go `net/http`'s `hexEscapeNonASCII`: every byte from 0x80 on becomes `%` and
its two hexadecimal digits. -/
def hexEscapeNonASCII : List Char → List Char
  | [] => []
  | c :: cs =>
    if c.toNat < 0x80 then c :: hexEscapeNonASCII cs
    else
      (utf8Bytes c).foldr (fun b acc => '%' :: hexDigit (b / 16) :: hexDigit (b % 16) :: acc)
        (hexEscapeNonASCII cs)

/-- Go `net/http`'s `htmlEscape` on one character. -/
def htmlEscapeChar (c : Char) : List Char :=
  if c = '&' then "&amp;".data
  else if c = '<' then "&lt;".data
  else if c = '>' then "&gt;".data
  else if c = Char.ofNat 34 then "&#34;".data
  else if c = Char.ofNat 39 then "&#39;".data
  else [c]

/-- Go `net/http`'s `htmlEscape`. -/
def htmlEscape : List Char → List Char
  | [] => []
  | c :: cs => htmlEscapeChar c ++ htmlEscape cs

/-- The target `http.Redirect(w, r, url, code)` arrives at before it escapes it:
when `url.Parse(url)` succeeds with neither scheme nor host, `url` is made
absolute against the directory of the request's escaped path,
`r.URL.EscapedPath()` (unless it starts with a slash), and its path part is
cleaned, a trailing slash and the query kept; otherwise `url` is left as it
is. -/
def redirectURL (lib : NetLib) (r : Request) (url : String) : String :=
  match lib.urlParse url with
  | none => url
  | some u =>
    if u.Scheme = "" ∧ u.Host = "" then
      let oldpath := if lib.EscapedPath r.URL = "" then "/" else lib.EscapedPath r.URL
      let url1 :=
        if url = "" ∨ url.data.head? ≠ some '/' then pathSplitDir oldpath.data ++ url.data
        else url.data
      let cut := url1.span (fun c => c != '?')
      let trailing := cut.1.getLast? = some '/'
      let url3 := pathClean cut.1
      let url4 := if trailing ∧ url3.getLast? ≠ some '/' then url3 ++ ['/'] else url3
      String.mk (url4 ++ cut.2)
    else url

/-- The value `http.Redirect(w, r, url, code)` sets the `Location` header to. -/
def redirectLocation (lib : NetLib) (r : Request) (url : String) : String :=
  String.mk (hexEscapeNonASCII (redirectURL lib r url).data)

/-- Go `http.Redirect(w, r, url, code)`: sets `Location`, sets `Content-Type`
for GET and HEAD when the sink had none, writes the status `code`, and for GET
writes the short HTML body. -/
def Redirect (lib : NetLib) (w : ResponseWriter) (r : Request) (url : String) (code : Nat) :
    ResponseWriter :=
  let hadCT := (w.header.get "Content-Type").isSome
  let w1 : ResponseWriter := { w with header := w.header.Set "Location" (redirectLocation lib r url) }
  let w2 : ResponseWriter :=
    if !hadCT && (r.Method == "GET" || r.Method == "HEAD") then
      { w1 with header := w1.header.Set "Content-Type" "text/html; charset=utf-8" }
    else w1
  let w3 := w2.WriteHeader code
  if !hadCT && r.Method == "GET" then
    w3.Write ("<a href=\"" ++ String.mk (htmlEscape (redirectURL lib r url).data) ++ "\">"
      ++ lib.StatusText code ++ "</a>.\n" ++ "\n")
  else w3

/-! ## Package urlshort -/

/-- Line 15: `MapHandler(pathsToUrls, fallback)`. The handler it returns looks
the request's URL path up in the map; on a hit it calls
`http.Redirect(w, r, dest, http.StatusFound)` and returns, otherwise it calls
`fallback.ServeHTTP(w, r)`. -/
def MapHandler (lib : NetLib) (pathsToUrls : GoMap) (fallback : Handler) : Handler :=
  fun w r =>
    let path := r.URL.Path
    match pathsToUrls.get path with
    | some dest => Redirect lib w r dest StatusFound
    | none => fallback w r

/-- Line 66: `type pathURL struct`. -/
structure pathURL where
  path : String
  url : String
deriving DecidableEq, Repr

/-- Modelled from the spec: the package-level sequence `pathURLS` that `buildMap`
ranges over ("one function iterates over a package-level sequence rather than
its parameter"). `src/handler.go` uses the identifier and does not declare it,
so its value is an input of the model. No line of `handler.go` assigns it (the
`pathURLS` of lines 52 and 82 are locals), so when the package's functions run
it is nil, `⟨[]⟩`. -/
structure Package where
  pathURLS : List pathURL
deriving DecidableEq, Repr

/-- The call `yamlv2.Unmarshal(data, &pathURLS)` on a nil `pathURLS`: the slice
as the decoder leaves it, and the error it returns. The decoder is
`gopkg.in/yaml.v2`, not code of this package. -/
abbrev YAMLUnmarshal := List UInt8 → List pathURL × Option String

/-- Line 81: `parseYAML(data)`. -/
def parseYAML (Unmarshal : YAMLUnmarshal) (data : List UInt8) : List pathURL × Option String :=
  let decoded := Unmarshal data
  match decoded.2 with
  | some err => ([], some err)
  | none => (decoded.1, none)

/-- Line 71: `buildMap(pathurls)`. The loop ranges over `pathURLS`, not over the
parameter `pathurls`. -/
def buildMap (pkg : Package) (pathurls : List pathURL) : GoMap :=
  pkg.pathURLS.foldl (fun pathsToUrls pu => pathsToUrls.set pu.path pu.url) GoMap.make

/-- What `YAMLHandler` returns and prints: the handler (`none` for a nil
handler), the error, and the lines written to standard output. -/
structure YAMLHandlerResult where
  handler : Option Handler
  err : Option String
  stdout : List String

/-- Line 50: `YAMLHandler(yml, fallback)`. A parse error is answered by printing
`Oops`; the map is built and the handler returned with a nil error either way. -/
def YAMLHandler (lib : NetLib) (Unmarshal : YAMLUnmarshal) (pkg : Package)
    (yml : List UInt8) (fallback : Handler) : YAMLHandlerResult :=
  let parsed := parseYAML Unmarshal yml
  let stdout := match parsed.2 with
    | some _ => ["Oops\n"]
    | none => []
  let pathsToUrls := buildMap pkg parsed.1
  ⟨some (MapHandler lib pathsToUrls fallback), none, stdout⟩

/-! ## yaml.v2: decoding a document into `[]pathURL`

The decoder of `gopkg.in/yaml.v2` (non-strict `Unmarshal`) on the node tree its
parser builds, for the target type `[]pathURL` and for documents without tags,
anchors and aliases. The struct `pathURL` has no exported field, so
`getStructInfo` gives it no field at all and no key of a mapping selects one. -/

/-- A node of a YAML document as the parser hands it to the decoder: a scalar
with its text and whether it is plain (`implicit`; quoted and block scalars are
not), a mapping with its key/value pairs, a sequence with its items. -/
inductive YAMLNode
  | scalar (value : String) (implicit : Bool)
  | mapping (children : List (YAMLNode × YAMLNode))
  | sequence (children : List YAMLNode)

mutual

/-- yaml.v2 `d.merge(n, out)` for `out` a `pathURL`: the value of a merge key
must be a mapping or a sequence of mappings, each decoded into `out`; anything
else stops the decoding (`none`). The result is the number of type errors. -/
def yamlMerge : YAMLNode → Option Nat
  | .mapping ps => yamlMappingStruct ps
  | .sequence cs => yamlMergeSequence cs
  | .scalar _ _ => none

/-- yaml.v2 `d.merge` on the items of a sequence. -/
def yamlMergeSequence : List YAMLNode → Option Nat
  | [] => some 0
  | .mapping ps :: cs =>
    match yamlMappingStruct ps, yamlMergeSequence cs with
    | some a, some b => some (a + b)
    | _, _ => none
  | _ :: _ => none

/-- yaml.v2 `d.mappingStruct(n, out)` for `out` a `pathURL`, on the pairs of the
mapping: a merge key (the plain scalar `<<`) merges its value; any other key is
decoded into a string, which a scalar key always allows and a mapping or
sequence key answers with a type error; the key then names no field of
`pathURL`, and the pair is skipped without looking at its value. No key is
required. The result is the number of type errors (`none` when a merge stopped
the decoding). -/
def yamlMappingStruct : List (YAMLNode × YAMLNode) → Option Nat
  | [] => some 0
  | (k, v) :: rest =>
    match k with
    | .scalar value implicit =>
      if value == "<<" && implicit then
        match yamlMerge v, yamlMappingStruct rest with
        | some a, some b => some (a + b)
        | _, _ => none
      else yamlMappingStruct rest
    | _ => (yamlMappingStruct rest).map (fun t => t + 1)

end

/-- A GET request for `path`, with no query, fragment, header or body. -/
def getRequest (path : String) : Request :=
  ⟨"GET", ⟨"", "", path, "", "", ""⟩, ⟨[]⟩, ""⟩

/-- The standard library on the inputs the examples use: `url.Parse` reads the
empty string as the zero URL, `c` as a URL that is only the path `c`, and
`https://x.example/a` as a URL with scheme and host; the escaped path of a URL
is its `RawPath` when it has one and its `Path` otherwise (the examples' paths
need no escaping, and their one `RawPath`, `/a%2Fb`, encodes its `Path`);
`http.StatusText(302)` is `Found`. No example asks it about another string or
code (those are answered with an error and the empty text). -/
def exampleLib : NetLib where
  urlParse := fun s =>
    if s = "" then some ⟨"", "", "", "", "", ""⟩
    else if s = "c" then some ⟨"", "", "c", "", "", ""⟩
    else if s = "https://x.example/a" then some ⟨"https", "x.example", "/a", "", "", ""⟩
    else none
  EscapedPath := fun u => if u.RawPath = "" then u.Path else u.RawPath
  StatusText := fun code => if code = 302 then "Found" else ""

/-- A fallback that answers 404 with the body `not found`. -/
def notFound : Handler :=
  fun w _ => (w.WriteHeader 404).Write "not found"

/-- The two records of the `/dogs`, `/cats` document. -/
def dogsCats : List pathURL :=
  [⟨"/dogs", "https://en.wikipedia.org/wiki/Dog"⟩, ⟨"/cats", "https://en.wikipedia.org/wiki/Cat"⟩]

/-- The bytes of the `/dogs`, `/cats` document. -/
def dogsCatsYAML : List UInt8 :=
  ("- path: /dogs\n  url: https://en.wikipedia.org/wiki/Dog\n" ++
    "- path: /cats\n  url: https://en.wikipedia.org/wiki/Cat\n").toUTF8.toList

theorem GoMap.get_make (k : String) : GoMap.make.get k = none := rfl

theorem GoMap.get_set_self (m : GoMap) (k v : String) : (m.set k v).get k = some v := by
  simp [GoMap.get, GoMap.set, List.lookup]

theorem lookup_filter_ne {β : Type} (l : List (String × β)) (k k' : String) (h : k' ≠ k) :
    (l.filter (fun e => e.1 != k)).lookup k' = l.lookup k' := by
  induction l with
  | nil => rfl
  | cons e es ih =>
    obtain ⟨a, b⟩ := e
    by_cases hak : a = k
    · subst hak
      have h1 : (k' == a) = false := by simpa using h
      simp [List.filter, List.lookup, h1, ih]
    · have h2 : (a != k) = true := by simpa using hak
      simp only [List.filter, h2, List.lookup]
      cases hk : (k' == a) <;> simp [ih]

theorem GoMap.get_set_ne (m : GoMap) (k v k' : String) (h : k' ≠ k) :
    (m.set k v).get k' = m.get k' := by
  have h1 : (k' == k) = false := by simpa using h
  simp [GoMap.get, GoMap.set, List.lookup, h1, lookup_filter_ne _ _ _ h]

theorem Header.get_Set_self (h : Header) (k v : String) : (h.Set k v).get k = some [v] := by
  simp [Header.get, Header.Set, List.lookup]

theorem Header.get_Set_ne (h : Header) (k v k' : String) (hne : k' ≠ k) :
    (h.Set k v).get k' = h.get k' := by
  have h1 : (k' == k) = false := by simpa using hne
  simp [Header.get, Header.Set, List.lookup, h1, lookup_filter_ne _ _ _ hne]

/-! ## Facts about `http.Redirect` -/

theorem WriteHeader_header (w : ResponseWriter) (code : Nat) :
    (w.WriteHeader code).header = w.header := by
  unfold ResponseWriter.WriteHeader
  cases w.status <;> rfl

theorem Write_header (w : ResponseWriter) (s : String) : (w.Write s).header = w.header := by
  simp [ResponseWriter.Write, WriteHeader_header]

theorem WriteHeader_status (w : ResponseWriter) (code : Nat) (h : w.status = none) :
    (w.WriteHeader code).status = some code := by
  simp [ResponseWriter.WriteHeader, h]

theorem Write_status (w : ResponseWriter) (s : String) (code : Nat) (h : w.status = some code) :
    (w.Write s).status = some code := by
  simp [ResponseWriter.Write, ResponseWriter.WriteHeader, h]

theorem Redirect_location (lib : NetLib) (w : ResponseWriter) (r : Request) (url : String)
    (code : Nat) :
    (Redirect lib w r url code).header.get "Location" = some [redirectLocation lib r url] := by
  have hne : ("Location" : String) ≠ "Content-Type" := by decide
  unfold Redirect
  simp only []
  split <;> split <;>
    simp [Write_header, WriteHeader_header, Header.get_Set_self, Header.get_Set_ne _ _ _ _ hne]

theorem Redirect_status (lib : NetLib) (w : ResponseWriter) (r : Request) (url : String)
    (code : Nat) (h : w.status = none) :
    (Redirect lib w r url code).status = some code := by
  unfold Redirect
  simp only []
  split <;> split <;>
    first
      | (apply Write_status; apply WriteHeader_status; exact h)
      | (apply WriteHeader_status; exact h)

theorem hexEscapeNonASCII_of_ascii (s : List Char) (h : ∀ c ∈ s, c.toNat < 0x80) :
    hexEscapeNonASCII s = s := by
  induction s with
  | nil => rfl
  | cons c cs ih =>
    have hc : c.toNat < 0x80 := h c (List.mem_cons_self c cs)
    have hcs : ∀ d ∈ cs, d.toNat < 0x80 := fun d hd => h d (List.mem_cons_of_mem c hd)
    simp [hexEscapeNonASCII, hc, ih hcs]

theorem hexDigit_ascii (n : Nat) : (hexDigit n).toNat < 0x80 := by
  unfold hexDigit
  by_cases hn : n < 16
  · interval_cases n <;> decide
  · have : ("0123456789abcdef".data).length ≤ n := by
      have : ("0123456789abcdef".data).length = 16 := by decide
      omega
    rw [List.getD_eq_default _ _ this]
    decide

theorem hexEscapeNonASCII_ascii (s : List Char) : ∀ c ∈ hexEscapeNonASCII s, c.toNat < 0x80 := by
  induction s with
  | nil => intro c hc; simp [hexEscapeNonASCII] at hc
  | cons d ds ih =>
    intro c hc
    unfold hexEscapeNonASCII at hc
    split at hc
    · rcases List.mem_cons.mp hc with h | h
      · subst h; assumption
      · exact ih c h
    · revert hc
      generalize utf8Bytes d = bs
      induction bs with
      | nil => intro hc; exact ih c hc
      | cons b bs ihb =>
        intro hc
        simp only [List.foldr, List.mem_cons] at hc
        rcases hc with h | h | h | h
        · subst h; decide
        · subst h; exact hexDigit_ascii _
        · subst h; exact hexDigit_ascii _
        · exact ihb h

/-- `http.Redirect` leaves a target alone that `url.Parse` rejects or reads as
having a scheme or a host. -/
theorem redirectURL_absolute (lib : NetLib) (r : Request) (url : String)
    (h : ∀ u, lib.urlParse url = some u → ¬ (u.Scheme = "" ∧ u.Host = "")) :
    redirectURL lib r url = url := by
  unfold redirectURL
  cases hp : lib.urlParse url with
  | none => rfl
  | some u => simp [h u hp]

theorem foldl_set_get (l : List pathURL) (m : GoMap) (p : String) :
    (l.foldl (fun pathsToUrls pu => pathsToUrls.set pu.path pu.url) m).get p =
      match l.reverse.find? (fun pu => pu.path == p) with
      | some pu => some pu.url
      | none => m.get p := by
  induction l generalizing m with
  | nil => rfl
  | cons x xs ih =>
    simp only [List.foldl, List.reverse_cons, List.find?_append, ih]
    cases hf : xs.reverse.find? (fun pu => pu.path == p) with
    | some pu => simp
    | none =>
      by_cases hx : x.path = p
      · subst hx; simp [GoMap.get_set_self]
      · have hx2 : (x.path == p) = false := by simpa using hx
        simp [List.find?, hx2, GoMap.get_set_ne _ _ _ _ (Ne.symm hx)]

/-- What `buildMap` does: it binds a path to the url of the last record of the
package-level `pathURLS` with that path, whatever its argument is. -/
theorem buildMap_get (pkg : Package) (pathurls : List pathURL) (p : String) :
    (buildMap pkg pathurls).get p =
      (pkg.pathURLS.reverse.find? (fun pu => pu.path == p)).map (fun pu => pu.url) := by
  unfold buildMap
  rw [foldl_set_get]
  cases pkg.pathURLS.reverse.find? (fun pu => pu.path == p) <;> simp [GoMap.get_make]

theorem buildMap_nil_package (pathurls : List pathURL) : buildMap ⟨[]⟩ pathurls = GoMap.make :=
  rfl

/-! ## Facts about the yaml.v2 decoder -/

/-- C1, as amended. When the request's URL path is a key of the map, with value
`dest`, the handler's whole effect is the call
`http.Redirect(w, r, dest, http.StatusFound)`, with `dest` handed over as the map
holds it, and the fallback is not invoked (every fallback gives the same
result). On a sink with no status yet the status is 302. The `Location` header
is the value `http.Redirect` derives from `dest`; it is `dest` itself when
`url.Parse` rejects `dest` or reads a scheme or a host in it and `dest` is ASCII
text. -/
theorem C1_hit_calls_redirect (lib : NetLib) (M : GoMap) (F : Handler) (w : ResponseWriter)
    (r : Request) (dest : String) (h : M.get r.URL.Path = some dest) :
    MapHandler lib M F w r = Redirect lib w r dest 302
    ∧ (∀ F2 : Handler, MapHandler lib M F2 w r = MapHandler lib M F w r)
    ∧ (w.status = none → (MapHandler lib M F w r).status = some 302)
    ∧ (MapHandler lib M F w r).header.get "Location" = some [redirectLocation lib r dest]
    ∧ ((∀ u, lib.urlParse dest = some u → ¬ (u.Scheme = "" ∧ u.Host = "")) →
        (∀ c ∈ dest.data, c.toNat < 0x80) →
        (MapHandler lib M F w r).header.get "Location" = some [dest]) := by
  have hM : ∀ G : Handler, MapHandler lib M G w r = Redirect lib w r dest 302 := by
    intro G
    simp [MapHandler, h, StatusFound]
  refine ⟨hM F, fun F2 => by rw [hM F2, hM F], ?_, ?_, ?_⟩
  · intro hw
    rw [hM F]
    exact Redirect_status lib w r dest 302 hw
  · rw [hM F]
    exact Redirect_location lib w r dest 302
  · intro habs hascii
    rw [hM F, Redirect_location]
    simp [redirectLocation, redirectURL_absolute lib r dest habs,
      hexEscapeNonASCII_of_ascii dest.data hascii]

/-- C1, the scenario of the spec: map `/a ↦ https://x.example/a`, request `/a`;
status 302, `Location: https://x.example/a`, and the 404 fallback left no trace.
And a relative value: map `/a/b ↦ c`, request `GET /a%2Fb` (URL path `/a/b`);
`Location: /c`, resolved against the escaped path. -/
theorem C1_hit_calls_redirect_witness :
    (GoMap.make.set "/a" "https://x.example/a").get (getRequest "/a").URL.Path
        = some "https://x.example/a"
    ∧ (MapHandler exampleLib (GoMap.make.set "/a" "https://x.example/a") notFound
        ResponseWriter.fresh (getRequest "/a")).status = some 302
    ∧ (MapHandler exampleLib (GoMap.make.set "/a" "https://x.example/a") notFound
        ResponseWriter.fresh (getRequest "/a")).header.get "Location"
        = some ["https://x.example/a"]
    ∧ (MapHandler exampleLib (GoMap.make.set "/a/b" "c") notFound ResponseWriter.fresh
        ⟨"GET", ⟨"", "", "/a/b", "/a%2Fb", "", ""⟩, ⟨[]⟩, ""⟩).header.get "Location"
        = some ["/c"] :=
  have h := C1_hit_calls_redirect exampleLib (GoMap.make.set "/a" "https://x.example/a")
    notFound ResponseWriter.fresh (getRequest "/a") "https://x.example/a" (by decide)
  have h2 := C1_hit_calls_redirect exampleLib (GoMap.make.set "/a/b" "c") notFound
    ResponseWriter.fresh ⟨"GET", ⟨"", "", "/a/b", "/a%2Fb", "", ""⟩, ⟨[]⟩, ""⟩ "c" (by decide)
  ⟨by decide, h.2.2.1 rfl, h.2.2.2.2 (by decide) (by decide), h2.2.2.2.1.trans (by decide)⟩

/-- C1 as stated fails: the `Location` header is not always the map's value
exactly. With the map `/a ↦ ""` and a GET request for `/a` the header is `/`,
not the empty string: so it is for `exampleLib`, and for every standard library
whose `url.Parse("")` returns a URL with neither scheme nor host and for which
the escaped path of the request is `/a` (as with `net/url`). And with the map
`/a ↦ /é` the header is never `/é`, whatever the standard library and the sink
are, because non-ASCII bytes are escaped. -/
theorem C1_location_is_not_always_the_value :
    (∃ (M : GoMap) (r : Request), M.get r.URL.Path = some ""
      ∧ (MapHandler exampleLib M notFound ResponseWriter.fresh r).header.get "Location"
          = some ["/"]
      ∧ ∀ (lib : NetLib) (F : Handler) (u : URL),
        lib.urlParse "" = some u → u.Scheme = "" → u.Host = "" →
        lib.EscapedPath r.URL = "/a" →
          (MapHandler lib M F ResponseWriter.fresh r).header.get "Location" = some ["/"]
          ∧ (MapHandler lib M F ResponseWriter.fresh r).header.get "Location" ≠ some [""])
    ∧ (∃ (M : GoMap) (r : Request), M.get r.URL.Path = some "/é" ∧
      ∀ (lib : NetLib) (F : Handler) (w : ResponseWriter),
        (MapHandler lib M F w r).header.get "Location" ≠ some ["/é"]) := by
  constructor
  · refine ⟨GoMap.make.set "/a" "", getRequest "/a", by decide, by decide, ?_⟩
    intro lib F u hp hs hh hesc
    have hget : (GoMap.make.set "/a" "").get (getRequest "/a").URL.Path = some "" := by decide
    have hloc : (MapHandler lib (GoMap.make.set "/a" "") F ResponseWriter.fresh
        (getRequest "/a")).header.get "Location" = some ["/"] := by
      have hM : MapHandler lib (GoMap.make.set "/a" "") F ResponseWriter.fresh (getRequest "/a")
          = Redirect lib ResponseWriter.fresh (getRequest "/a") "" 302 := by
        simp [MapHandler, hget, StatusFound]
      rw [hM, Redirect_location]
      have hu : redirectURL lib (getRequest "/a") "" = "/" := by
        simp only [redirectURL, hp, hs, hh, hesc]
        decide
      simp only [redirectLocation, hu]
      decide
    refine ⟨hloc, ?_⟩
    rw [hloc]
    decide
  · refine ⟨GoMap.make.set "/a" "/é", getRequest "/a", by decide, ?_⟩
    intro lib F w
    have hget : (GoMap.make.set "/a" "/é").get (getRequest "/a").URL.Path = some "/é" := by
      decide
    have hM : MapHandler lib (GoMap.make.set "/a" "/é") F w (getRequest "/a")
        = Redirect lib w (getRequest "/a") "/é" 302 := by
      simp [MapHandler, hget, StatusFound]
    rw [hM, Redirect_location]
    intro heq
    have heq2 : redirectLocation lib (getRequest "/a") "/é" = "/é" := by
      simpa using heq
    have hmem : 'é' ∈ (redirectLocation lib (getRequest "/a") "/é").data := by
      rw [heq2]; decide
    have := hexEscapeNonASCII_ascii _ _ hmem
    revert this
    decide

/-! ## C2: a request whose path is not a key -/

/-- C2. When the request's URL path is not a key of the map, the handler's
result is exactly what one call `fallback.ServeHTTP(w, r)` leaves: the fallback
gets the sink as the handler received it (nothing written: no status, no
header, no body) and the request unchanged, and `http.Redirect` plays no part
(the result is the same for every standard library). -/
theorem C2_miss_delegates (lib : NetLib) (M : GoMap) (F : Handler) (w : ResponseWriter)
    (r : Request) (h : M.get r.URL.Path = none) :
    MapHandler lib M F w r = F w r
    ∧ (∀ lib2 : NetLib, MapHandler lib2 M F w r = F w r) := by
  constructor
  · simp [MapHandler, h]
  · intro lib2
    simp [MapHandler, h]

/-- C2, the scenario of the spec: map `/a ↦ https://x.example/a`, request `/b`;
the client sees what the fallback wrote, status 404 and body `not found`, written
once, and no header. -/
theorem C2_miss_delegates_witness :
    (GoMap.make.set "/a" "https://x.example/a").get (getRequest "/b").URL.Path = none
    ∧ MapHandler exampleLib (GoMap.make.set "/a" "https://x.example/a") notFound
        ResponseWriter.fresh (getRequest "/b") = ⟨⟨[]⟩, some 404, "not found"⟩ :=
  ⟨by decide,
    (C2_miss_delegates exampleLib (GoMap.make.set "/a" "https://x.example/a") notFound
      ResponseWriter.fresh (getRequest "/b") (by decide)).1.trans (by decide)⟩

/-! ## C10: dispatch by the URL path alone -/

/-- C9. `parseYAML` returns either records with a nil error, or a non-nil error
with no records; when the decoder reports an error the records it had decoded
before are dropped. -/
theorem C9_no_records_on_error (Unmarshal : YAMLUnmarshal) (data : List UInt8) :
    (((parseYAML Unmarshal data).2 = none ∧ (parseYAML Unmarshal data).1 = (Unmarshal data).1)
      ∨ ((parseYAML Unmarshal data).2 ≠ none ∧ (parseYAML Unmarshal data).1 = []))
    ∧ (∀ err, (Unmarshal data).2 = some err → parseYAML Unmarshal data = ([], some err)) := by
  cases hd : (Unmarshal data).2 with
  | none => simp [parseYAML, hd]
  | some e => simp [parseYAML, hd]

/-- C3, what the code does. With an empty package-level `pathURLS`, the handler
built from `buildMap(S)` hands every request to the fallback, whatever the
records `S` are: a request for the path of a record of `S` is not redirected. -/
theorem C3_records_are_not_served (lib : NetLib) (S : List pathURL) (F : Handler)
    (w : ResponseWriter) (r : Request) :
    MapHandler lib (buildMap ⟨[]⟩ S) F w r = F w r := by
  simp [MapHandler, buildMap_nil_package, GoMap.get_make]

/-- C4, what the code does. The result of `buildMap` does not depend on its
argument, and with an empty package-level `pathURLS` the sequence
`[(p, u1), (p, u2)]` gives a map that does not bind `p` at all. -/
theorem C4_argument_is_ignored (pkg : Package) (S : List pathURL) (p u1 u2 : String) :
    buildMap pkg S = buildMap pkg []
    ∧ (buildMap ⟨[]⟩ [⟨p, u1⟩, ⟨p, u2⟩]).get p = none :=
  ⟨rfl, rfl⟩

/-- C8. The package-level `pathURLS` being nil (nothing assigns it), and the
decoder leaving the slice nil with a nil error on the empty document:
`parseYAML` of the empty document is no records and a nil error, `buildMap` of
the empty sequence is the empty map, and the handler `YAMLHandler` returns on
the empty document hands every request to the fallback, with the sink and the
request as it got them, whatever `http.Redirect` would do. -/
theorem C8_empty_document_delegates (lib : NetLib) (Unmarshal : YAMLUnmarshal) (F : Handler)
    (w : ResponseWriter) (r : Request) (hempty : Unmarshal [] = ([], none)) :
    parseYAML Unmarshal [] = ([], none)
    ∧ buildMap ⟨[]⟩ [] = GoMap.make
    ∧ (∀ k, (buildMap ⟨[]⟩ (parseYAML Unmarshal []).1).get k = none)
    ∧ ∃ H : Handler, (YAMLHandler lib Unmarshal ⟨[]⟩ [] F).handler = some H
        ∧ (YAMLHandler lib Unmarshal ⟨[]⟩ [] F).err = none
        ∧ H w r = F w r := by
  refine ⟨by simp [parseYAML, hempty], rfl, fun k => rfl, _, rfl, rfl, ?_⟩
  simp [MapHandler, buildMap_nil_package, GoMap.get_make]

/-- C8 with a decoder that leaves the slice nil, the 404 fallback and a request
for `/a`: the client sees the fallback's answer. -/
theorem C8_empty_document_delegates_witness :
    ((fun _ => ([], none)) : YAMLUnmarshal) [] = ([], none)
    ∧ parseYAML (fun _ => ([], none)) [] = ([], none)
    ∧ ∃ H : Handler,
        (YAMLHandler exampleLib (fun _ => ([], none)) ⟨[]⟩ [] notFound).handler = some H
        ∧ H ResponseWriter.fresh (getRequest "/a") = ⟨⟨[]⟩, some 404, "not found"⟩ :=
  have h := C8_empty_document_delegates exampleLib (fun _ => ([], none)) notFound
    ResponseWriter.fresh (getRequest "/a") rfl
  ⟨rfl, h.1, by
    obtain ⟨H, hH, _, hdel⟩ := h.2.2.2
    exact ⟨H, hH, hdel.trans (by decide)⟩⟩

/-! ## C5, C6: `YAMLHandler` -/

/-- C5, what the code does. `YAMLHandler` returns a handler and a nil error on
every input; a parse error is only answered by printing `Oops`. -/
theorem C5_error_is_dropped (lib : NetLib) (Unmarshal : YAMLUnmarshal) (pkg : Package)
    (yml : List UInt8) (F : Handler) :
    (YAMLHandler lib Unmarshal pkg yml F).err = none
    ∧ (YAMLHandler lib Unmarshal pkg yml F).handler.isSome
    ∧ (∀ err, (parseYAML Unmarshal yml).2 = some err →
        (YAMLHandler lib Unmarshal pkg yml F).stdout = ["Oops\n"]) := by
  refine ⟨rfl, rfl, ?_⟩
  intro err herr
  simp [YAMLHandler, herr]

/-- C6, what the code does on the `/dogs`, `/cats` document. A decoder outside
the package cannot set the unexported fields `path` and `url`, so every record
it leaves is the zero record: `parseYAML` does not return the document's
records. And with an empty package-level `pathURLS` the handler `YAMLHandler`
returns hands the request for `/cats` to the fallback. -/
theorem C6_document_records_are_lost (lib : NetLib) (Unmarshal : YAMLUnmarshal) (F : Handler)
    (w : ResponseWriter)
    (hzero : ∀ data, ∀ pu ∈ (Unmarshal data).1, pu = (⟨"", ""⟩ : pathURL)) :
    (parseYAML Unmarshal dogsCatsYAML).1 ≠ dogsCats
    ∧ ∃ H : Handler, (YAMLHandler lib Unmarshal ⟨[]⟩ dogsCatsYAML F).handler = some H
        ∧ H w (getRequest "/cats") = F w (getRequest "/cats") := by
  constructor
  · intro heq
    have hmem : (⟨"/dogs", "https://en.wikipedia.org/wiki/Dog"⟩ : pathURL)
        ∈ (parseYAML Unmarshal dogsCatsYAML).1 := by
      rw [heq]; simp [dogsCats]
    unfold parseYAML at hmem
    cases hd : (Unmarshal dogsCatsYAML).2 with
    | some e => simp [hd] at hmem
    | none =>
      simp only [hd] at hmem
      have := hzero dogsCatsYAML _ hmem
      revert this
      decide
  · refine ⟨_, rfl, ?_⟩
    simp [MapHandler, buildMap_nil_package, GoMap.get_make]

/-- C6 with a decoder that finds the two elements of the document and leaves
both records zero. -/
theorem C6_document_records_are_lost_witness :
    (∀ data, ∀ pu ∈ (((fun _ => ([⟨"", ""⟩, ⟨"", ""⟩], none)) : YAMLUnmarshal) data).1,
        pu = (⟨"", ""⟩ : pathURL))
    ∧ (parseYAML (fun _ => ([⟨"", ""⟩, ⟨"", ""⟩], none)) dogsCatsYAML).1 ≠ dogsCats :=
  have hz : ∀ data, ∀ pu ∈ (((fun _ => ([⟨"", ""⟩, ⟨"", ""⟩], none)) : YAMLUnmarshal) data).1,
      pu = (⟨"", ""⟩ : pathURL) := by
    intro data pu hpu
    simpa using hpu
  ⟨hz, (C6_document_records_are_lost exampleLib (fun _ => ([⟨"", ""⟩, ⟨"", ""⟩], none)) notFound
    ResponseWriter.fresh hz).1⟩

end Urlshort
